import Mathlib

/-!
# Clinic front desk: the in-memory resource service of `src/backend/server.js`

The Express handlers of `server.js` work on three module-level arrays
(`patients`, `doctors`, `appointments`).  Each handler is embedded as a pure
function from its request data (route parameter, parsed JSON body, identifier
produced by `uuidv4()`) and the three tables to the new tables and the response.

JavaScript values are embedded as `JVal`; the handlers observe request values
only through truthiness (`!x`, `if (x)`), strict equality with a string
(`=== 'Urgent'`, `d.id === id`) and copying.  A request body is the object that
`express.json()` hands to the handler, as the list of its properties.
-/

namespace Clinic

/-! ## Values -/

/-- JavaScript values that can occur in a parsed JSON body or in a stored record.
`undefined` is what a destructured field holds when the body does not name it.
Numbers carry an integer payload: the handlers only test a number for being zero. -/
inductive JVal where
  | undefined
  | null
  | bool (b : Bool)
  | num (n : Int)
  | str (s : String)
  | arr (items : List JVal)
  | obj (props : List (String × JVal))

namespace JVal

mutual
/-- Structural equality test on values. -/
def beq : JVal → JVal → Bool
  | undefined, undefined => true
  | null, null => true
  | bool a, bool b => a == b
  | num a, num b => a == b
  | str a, str b => a == b
  | arr xs, arr ys => beqItems xs ys
  | obj ps, obj qs => beqProps ps qs
  | _, _ => false
/-- Structural equality test on array items. -/
def beqItems : List JVal → List JVal → Bool
  | [], [] => true
  | x :: xs, y :: ys => beq x y && beqItems xs ys
  | _, _ => false
/-- Structural equality test on property lists. -/
def beqProps : List (String × JVal) → List (String × JVal) → Bool
  | [], [] => true
  | (k, x) :: ps, (l, y) :: qs => k == l && beq x y && beqProps ps qs
  | _, _ => false
end

mutual
theorem beq_iff : ∀ (a b : JVal), beq a b = true ↔ a = b
  | undefined, b => by cases b <;> simp [beq]
  | null, b => by cases b <;> simp [beq]
  | bool a, b => by cases b <;> simp [beq]
  | num a, b => by cases b <;> simp [beq]
  | str a, b => by cases b <;> simp [beq]
  | arr xs, b => by cases b <;> simp [beq, beqItems_iff xs]
  | obj ps, b => by cases b <;> simp [beq, beqProps_iff ps]
theorem beqItems_iff : ∀ (a b : List JVal), beqItems a b = true ↔ a = b
  | [], b => by cases b <;> simp [beqItems]
  | x :: xs, b => by cases b <;> simp [beqItems, beq_iff x, beqItems_iff xs]
theorem beqProps_iff : ∀ (a b : List (String × JVal)), beqProps a b = true ↔ a = b
  | [], b => by cases b <;> simp [beqProps]
  | (k, x) :: ps, b => by
    cases b with
    | nil => simp [beqProps]
    | cons q qs =>
      obtain ⟨l, y⟩ := q
      simp [beqProps, beq_iff x, beqProps_iff ps, and_assoc]
end

instance : DecidableEq JVal := fun a b => decidable_of_iff _ (beq_iff a b)

/-- JavaScript `ToBoolean`: the test behind `!x` and `if (x)`.  The falsy values
are `undefined`, `null`, `false`, `0` and the empty string; arrays and objects
are always truthy. -/
def truthy : JVal → Bool
  | undefined => false
  | null => false
  | bool b => b
  | num n => n != 0
  | str s => s != ""
  | arr _ => true
  | obj _ => true

/-- Strict equality `v === s` of a value with a string: true exactly when `v` is
that string. -/
def strictEqStr (v : JVal) (s : String) : Bool :=
  match v with
  | str t => t == s
  | _ => false

end JVal

/-! ## Objects -/

/-- A JavaScript object as the list of its properties in insertion order; the
value of a key is the one of its first entry. -/
abbrev JObj := List (String × JVal)

/-- Property read `o.k` (also what destructuring `const { k } = o` binds):
`undefined` when `o` has no property `k`. -/
def getProp (o : JObj) (k : String) : JVal :=
  match o.lookup k with
  | some v => v
  | none => JVal.undefined

/-- Whether `o` has an own property `k`. -/
def hasProp (o : JObj) (k : String) : Bool :=
  (o.lookup k).isSome

/-- Defining a data property: an existing property keeps its place and takes the
new value, a new property is added at the end.  JavaScript enumerates keys that
are array indices (such as "7") before all other keys; that reordering is not
modelled, the list keeps insertion order for every key, and nothing below reads
the order of the keys of a record. -/
def putProp (k : String) (v : JVal) : JObj → JObj
  | [] => [(k, v)]
  | (k', v') :: rest => if k' == k then (k, v) :: rest else (k', v') :: putProp k v rest

/-- Object spread `{ ...target, ...source }` onto an already built `target`: for
each own key of `source`, in order, its value is read from `source` and defined
on the result. -/
def spreadInto (target source : JObj) : JObj :=
  source.foldl (fun acc kv => putProp kv.1 (getProp source kv.1) acc) target

/-- The object literal `{ ...a, ...b }`. -/
def spread (a b : JObj) : JObj :=
  spreadInto (spreadInto [] a) b

/-! ## Arrays -/

/-- `Array.prototype.findIndex`: the index of the first element satisfying `p`;
`none` stands for the result `-1`. -/
def findIndex {α : Type} (p : α → Bool) : List α → Option Nat
  | [] => none
  | x :: xs => if p x then some 0 else (findIndex p xs).map (· + 1)

/-- Insertion of `x` in front of a sorted list: `x` moves right past the elements
that the comparator puts strictly before it. -/
def insertSorted {α : Type} (cmp : α → α → Int) (x : α) : List α → List α
  | [] => [x]
  | y :: ys => if cmp x y > 0 then y :: insertSorted cmp x ys else x :: y :: ys

/-- `Array.prototype.sort(cmp)`: a stable sort by the comparator (a negative
result puts the first argument first, a positive one the second, zero keeps the
original order), here as a stable insertion sort. -/
def arraySort {α : Type} (cmp : α → α → Int) : List α → List α
  | [] => []
  | x :: xs => insertSorted cmp x (arraySort cmp xs)

/-! ## Records and tables -/

/-- A patient record `{ id, name, status, priority }`. -/
structure Patient where
  id : String
  name : JVal
  status : JVal
  priority : JVal
  deriving DecidableEq

/-- An appointment record `{ id, patientName, doctorId, time, date, status }`. -/
structure Appointment where
  id : String
  patientName : JVal
  doctorId : JVal
  time : JVal
  date : JVal
  status : JVal
  deriving DecidableEq

/-- A doctor record.  It is an open object: the update handler spreads the whole
request body into it, so any property (also `id`) can be added or overwritten. -/
abbrev Doctor := JObj

/-- The three module-level arrays. -/
structure Db where
  patients : List Patient
  doctors : List Doctor
  appointments : List Appointment
  deriving DecidableEq

/-- What a handler sends: `res.json(x)`, or `res.send()` with nothing. -/
inductive Payload where
  | empty
  | error (message : String)
  | patient (p : Patient)
  | patients (ps : List Patient)
  | doctor (d : Doctor)
  | doctors (ds : List Doctor)
  | appointment (a : Appointment)
  | appointments (as : List Appointment)
  deriving DecidableEq

/-- An HTTP response: status code (200 when the handler sets none) and payload. -/
structure Response where
  status : Nat
  payload : Payload
  deriving DecidableEq

/-- The seeded `patients` array. -/
def seedPatients : List Patient :=
  [ ⟨"1", .str "John Doe", .str "Waiting", .str "Normal"⟩,
    ⟨"2", .str "Jane Smith", .str "With Doctor", .str "Normal"⟩,
    ⟨"3", .str "Bob Johnson", .str "Waiting", .str "Urgent"⟩ ]

/-- A doctor object literal with the key order of the seed data. -/
def seedDoctor (id name specialization status gender location : String) : Doctor :=
  [("id", .str id), ("name", .str name), ("specialization", .str specialization),
   ("status", .str status), ("gender", .str gender), ("location", .str location)]

/-- The seeded `doctors` array. -/
def seedDoctors : List Doctor :=
  [ seedDoctor "d1" "Dr. Smith" "General Practice" "Available" "Male" "Clinic A",
    seedDoctor "d2" "Dr. Johnson" "Pediatrics" "Busy" "Female" "Clinic B",
    seedDoctor "d3" "Dr. Lee" "Cardiology" "Off Duty" "Female" "Clinic A",
    seedDoctor "d4" "Dr. Patel" "Dermatology" "Available" "Male" "Clinic B" ]

/-- The tables at startup. -/
def seedDb : Db := ⟨seedPatients, seedDoctors, []⟩

/-! ## Handlers -/

/-- The comparator of `GET /api/queue`. -/
def queueCompare (a b : Patient) : Int :=
  if a.priority.strictEqStr "Urgent" && !b.priority.strictEqStr "Urgent" then -1
  else if !a.priority.strictEqStr "Urgent" && b.priority.strictEqStr "Urgent" then 1
  else 0

/-- `GET /api/queue`.  `patients.sort(...)` sorts the stored array in place and
returns that same array, which is sent. -/
def getQueue (db : Db) : Db × Response :=
  let sortedPatients := arraySort queueCompare db.patients
  ({ db with patients := sortedPatients }, ⟨200, .patients sortedPatients⟩)

/-- `GET /api/doctors`. -/
def getDoctors (db : Db) : Db × Response :=
  (db, ⟨200, .doctors db.doctors⟩)

/-- The test `d.id === id` on a doctor record. -/
def doctorHasId (id : String) (d : Doctor) : Bool :=
  (getProp d "id").strictEqStr id

/-- `GET /api/doctors/:id`. -/
def getDoctor (id : String) (db : Db) : Db × Response :=
  match db.doctors.find? (doctorHasId id) with
  | none => (db, ⟨404, .error "Doctor not found."⟩)
  | some doctor => (db, ⟨200, .doctor doctor⟩)

/-- `POST /api/doctors`; `newId` is the result of `uuidv4()`. -/
def createDoctor (newId : String) (body : JObj) (db : Db) : Db × Response :=
  let name := getProp body "name"
  let specialization := getProp body "specialization"
  let gender := getProp body "gender"
  let location := getProp body "location"
  if !name.truthy || !specialization.truthy || !gender.truthy || !location.truthy then
    (db, ⟨400, .error "All fields are required for a new doctor."⟩)
  else
    let newDoctor : Doctor :=
      [("id", .str newId), ("name", name), ("specialization", specialization),
       ("gender", gender), ("location", location), ("status", .str "Available")]
    ({ db with doctors := db.doctors ++ [newDoctor] }, ⟨201, .doctor newDoctor⟩)

/-- `PUT /api/doctors/:id`.  The index returned by `findIndex` is always inside
the array, so the inner `none` case (reading past the end) never runs. -/
def updateDoctor (id : String) (updateData : JObj) (db : Db) : Db × Response :=
  match findIndex (doctorHasId id) db.doctors with
  | none => (db, ⟨404, .error "Doctor not found."⟩)
  | some doctorIndex =>
    match db.doctors[doctorIndex]? with
    | none => (db, ⟨404, .error "Doctor not found."⟩)
    | some old =>
      let merged := spread old updateData
      ({ db with doctors := db.doctors.set doctorIndex merged }, ⟨200, .doctor merged⟩)

/-- `DELETE /api/doctors/:id`.  The array is replaced by the filtered one before
the lengths are compared. -/
def deleteDoctor (id : String) (db : Db) : Db × Response :=
  let initialLength := db.doctors.length
  let doctors := db.doctors.filter (fun d => !doctorHasId id d)
  if doctors.length = initialLength then
    ({ db with doctors := doctors }, ⟨404, .error "Doctor not found."⟩)
  else
    ({ db with doctors := doctors }, ⟨204, .empty⟩)

/-- `POST /api/patients`; `newId` is the result of `uuidv4()`. -/
def createPatient (newId : String) (body : JObj) (db : Db) : Db × Response :=
  let name := getProp body "name"
  if !name.truthy then
    (db, ⟨400, .error "Patient name is required."⟩)
  else
    let newPatient : Patient := ⟨newId, name, .str "Waiting", .str "Normal"⟩
    ({ db with patients := db.patients ++ [newPatient] }, ⟨201, .patient newPatient⟩)

/-- The two guarded assignments of `PUT /api/patients/:id` on the record found. -/
def applyPatientUpdate (status priority : JVal) (p : Patient) : Patient :=
  let p1 := if status.truthy then { p with status := status } else p
  if priority.truthy then { p1 with priority := priority } else p1

/-- `PUT /api/patients/:id`.  As in `updateDoctor`, the inner `none` case never
runs. -/
def updatePatient (id : String) (body : JObj) (db : Db) : Db × Response :=
  let status := getProp body "status"
  let priority := getProp body "priority"
  match findIndex (fun p : Patient => p.id == id) db.patients with
  | none => (db, ⟨404, .error "Patient not found."⟩)
  | some patientIndex =>
    match db.patients[patientIndex]? with
    | none => (db, ⟨404, .error "Patient not found."⟩)
    | some old =>
      let updated := applyPatientUpdate status priority old
      ({ db with patients := db.patients.set patientIndex updated }, ⟨200, .patient updated⟩)

/-- `DELETE /api/patients/:id`. -/
def deletePatient (id : String) (db : Db) : Db × Response :=
  let initialLength := db.patients.length
  let patients := db.patients.filter (fun p => !(p.id == id))
  if patients.length = initialLength then
    ({ db with patients := patients }, ⟨404, .error "Patient not found."⟩)
  else
    ({ db with patients := patients }, ⟨204, .empty⟩)

/-- `GET /api/appointments`. -/
def getAppointments (db : Db) : Db × Response :=
  (db, ⟨200, .appointments db.appointments⟩)

/-- `POST /api/appointments`; `newId` is the result of `uuidv4()`. -/
def createAppointment (newId : String) (body : JObj) (db : Db) : Db × Response :=
  let patientName := getProp body "patientName"
  let doctorId := getProp body "doctorId"
  let time := getProp body "time"
  let date := getProp body "date"
  if !patientName.truthy || !doctorId.truthy || !time.truthy || !date.truthy then
    (db, ⟨400, .error "All fields are required to book an appointment."⟩)
  else
    let newAppointment : Appointment :=
      ⟨newId, patientName, doctorId, time, date, .str "Booked"⟩
    ({ db with appointments := db.appointments ++ [newAppointment] },
      ⟨201, .appointment newAppointment⟩)

/-- `PUT /api/appointments/:id`: the status is assigned without a test.  As in
`updateDoctor`, the inner `none` case never runs. -/
def updateAppointment (id : String) (body : JObj) (db : Db) : Db × Response :=
  let status := getProp body "status"
  match findIndex (fun a : Appointment => a.id == id) db.appointments with
  | none => (db, ⟨404, .error "Appointment not found."⟩)
  | some appointmentIndex =>
    match db.appointments[appointmentIndex]? with
    | none => (db, ⟨404, .error "Appointment not found."⟩)
    | some old =>
      let updated := { old with status := status }
      ({ db with appointments := db.appointments.set appointmentIndex updated },
        ⟨200, .appointment updated⟩)

/-- `DELETE /api/appointments/:id`. -/
def deleteAppointment (id : String) (db : Db) : Db × Response :=
  let initialLength := db.appointments.length
  let appointments := db.appointments.filter (fun a => !(a.id == id))
  if appointments.length = initialLength then
    ({ db with appointments := appointments }, ⟨404, .error "Appointment not found."⟩)
  else
    ({ db with appointments := appointments }, ⟨204, .empty⟩)

/-! ## The service as a transition system -/

/-- One request to the service, with the data its handler reads: the route
parameter, the parsed JSON body and, for the creating handlers, the identifier
that `uuidv4()` returns. -/
inductive Request where
  | getQueue
  | getDoctors
  | getDoctor (id : String)
  | createDoctor (newId : String) (body : JObj)
  | updateDoctor (id : String) (body : JObj)
  | deleteDoctor (id : String)
  | createPatient (newId : String) (body : JObj)
  | updatePatient (id : String) (body : JObj)
  | deletePatient (id : String)
  | getAppointments
  | createAppointment (newId : String) (body : JObj)
  | updateAppointment (id : String) (body : JObj)
  | deleteAppointment (id : String)

/-- Dispatch of a request to its handler. -/
def handle (rq : Request) (db : Db) : Db × Response :=
  match rq with
  | .getQueue => getQueue db
  | .getDoctors => getDoctors db
  | .getDoctor id => getDoctor id db
  | .createDoctor newId body => createDoctor newId body db
  | .updateDoctor id body => updateDoctor id body db
  | .deleteDoctor id => deleteDoctor id db
  | .createPatient newId body => createPatient newId body db
  | .updatePatient id body => updatePatient id body db
  | .deletePatient id => deletePatient id db
  | .getAppointments => getAppointments db
  | .createAppointment newId body => createAppointment newId body db
  | .updateAppointment id body => updateAppointment id body db
  | .deleteAppointment id => deleteAppointment id db

/-- The identifiers of a doctor table, in table order. -/
def doctorIds (ds : List Doctor) : List JVal :=
  ds.map (fun d => getProp d "id")

/-- Requests under which identifier uniqueness of the doctor table is kept: a
doctor creation whose generated identifier no record carries; a doctor update
that does not hand the identifier of another record to the updated one, that is,
the body does not name the property `id`, or no record carries the identifier of
the request (nothing is updated), or every record carrying the body's `id` value
carries the identifier of the request (the body's `id` is the record's own, or an
unused value); every other request. -/
def keepsDoctorIds (rq : Request) (db : Db) : Bool :=
  match rq with
  | .createDoctor newId _ => db.doctors.all (fun d => !doctorHasId newId d)
  | .updateDoctor id body =>
    !hasProp body "id"
      || db.doctors.all (fun d => !doctorHasId id d)
      || db.doctors.all
          (fun d => doctorHasId id d || decide (getProp d "id" ≠ getProp body "id"))
  | _ => true

/-- States reached from the seeded tables by requests that satisfy
`keepsDoctorIds`. -/
inductive Reachable : Db → Prop where
  | seed : Reachable seedDb
  | step (db : Db) (rq : Request) :
      Reachable db → keepsDoctorIds rq db = true → Reachable (handle rq db).1

/-- The table `new` is `old` with the record at position `i` replaced by `x`:
same size, `x` at `i`, every other position as before. -/
def ReplacedAt {α : Type} (old new : List α) (i : Nat) (x : α) : Prop :=
  new.length = old.length ∧ new[i]? = some x ∧ ∀ j, j ≠ i → new[j]? = old[j]?

/-- The body gives no value for `k`: it does not name the property, or names it
with the empty string. -/
def AbsentOrEmpty (body : JObj) (k : String) : Prop :=
  hasProp body k = false ∨ getProp body k = .str ""

instance (body : JObj) (k : String) : Decidable (AbsentOrEmpty body k) := by
  unfold AbsentOrEmpty
  infer_instance

/-- The body leaves `k` out or gives it a string value, as the data model types
the fields of a creation request. -/
def StringOrAbsent (body : JObj) (k : String) : Prop :=
  hasProp body k = false ∨ ∃ s, getProp body k = .str s

/-! ## Lemmas on values, objects and arrays -/

theorem strictEqStr_iff (v : JVal) (s : String) : v.strictEqStr s = true ↔ v = .str s := by
  cases v <;> simp [JVal.strictEqStr]

theorem truthy_str (s : String) : (JVal.str s).truthy = true ↔ s ≠ "" := by
  simp [JVal.truthy]

theorem lookup_cons_ite (k a : String) (b : JVal) (rest : JObj) :
    List.lookup k ((a, b) :: rest) = if k = a then some b else List.lookup k rest := by
  by_cases h : k = a
  · have hb : (k == a) = true := by simp [h]
    simp [List.lookup, hb, h]
  · have hb : (k == a) = false := by simp [h]
    simp [List.lookup, hb, h]

theorem getProp_nil (k : String) : getProp [] k = JVal.undefined := rfl

theorem hasProp_nil (k : String) : hasProp [] k = false := rfl

theorem getProp_cons (k a : String) (b : JVal) (rest : JObj) :
    getProp ((a, b) :: rest) k = if k = a then b else getProp rest k := by
  unfold getProp
  rw [lookup_cons_ite]
  by_cases h : k = a <;> simp [h]

theorem hasProp_cons (k a : String) (b : JVal) (rest : JObj) :
    hasProp ((a, b) :: rest) k = (decide (k = a) || hasProp rest k) := by
  unfold hasProp
  rw [lookup_cons_ite]
  by_cases h : k = a <;> simp [h]

theorem putProp_cons_same (k : String) (v b : JVal) (rest : JObj) :
    putProp k v ((k, b) :: rest) = (k, v) :: rest := by
  simp [putProp]

theorem putProp_cons_other (k a : String) (v b : JVal) (rest : JObj) (h : ¬ a = k) :
    putProp k v ((a, b) :: rest) = (a, b) :: putProp k v rest := by
  simp [putProp, h]

theorem getProp_putProp (k : String) (v : JVal) (o : JObj) (k' : String) :
    getProp (putProp k v o) k' = if k' = k then v else getProp o k' := by
  induction o with
  | nil => simp [putProp, getProp_cons, getProp_nil]
  | cons kv rest ih =>
    obtain ⟨a, b⟩ := kv
    by_cases hak : a = k
    · subst hak
      rw [putProp_cons_same, getProp_cons, getProp_cons]
      by_cases h : k' = a <;> simp [h]
    · rw [putProp_cons_other k a v b rest hak, getProp_cons, getProp_cons, ih]
      by_cases h : k' = a
      · subst h
        simp [hak]
      · simp [h]

theorem hasProp_putProp (k : String) (v : JVal) (o : JObj) (k' : String) :
    hasProp (putProp k v o) k' = (decide (k' = k) || hasProp o k') := by
  induction o with
  | nil => simp [putProp, hasProp_cons, hasProp_nil]
  | cons kv rest ih =>
    obtain ⟨a, b⟩ := kv
    by_cases hak : a = k
    · subst hak
      rw [putProp_cons_same, hasProp_cons, hasProp_cons]
      by_cases h : k' = a <;> simp [h]
    · rw [putProp_cons_other k a v b rest hak, hasProp_cons, hasProp_cons, ih]
      by_cases h : k' = a
      · subst h
        simp
      · by_cases h2 : k' = k <;> simp [h, h2]

theorem hasProp_iff_mem_keys (o : JObj) (k : String) :
    hasProp o k = true ↔ k ∈ o.map Prod.fst := by
  induction o with
  | nil => simp [hasProp_nil]
  | cons kv rest ih =>
    obtain ⟨a, b⟩ := kv
    rw [hasProp_cons]
    by_cases h : k = a
    · simp [h]
    · simp only [h, decide_False, Bool.false_or, ih, List.map_cons, List.mem_cons, false_or]

theorem getProp_of_hasProp_false (o : JObj) (k : String) (h : hasProp o k = false) :
    getProp o k = JVal.undefined := by
  unfold hasProp at h
  unfold getProp
  cases hl : o.lookup k with
  | none => rfl
  | some v => simp [hl] at h

/-- Reading a property after folding a list of entries of `s` into `t`. -/
theorem foldl_put_spec (s : JObj) (l : JObj) (t : JObj) (k : String) :
    getProp (l.foldl (fun acc kv => putProp kv.1 (getProp s kv.1) acc) t) k
        = (if k ∈ l.map Prod.fst then getProp s k else getProp t k)
    ∧ hasProp (l.foldl (fun acc kv => putProp kv.1 (getProp s kv.1) acc) t) k
        = (decide (k ∈ l.map Prod.fst) || hasProp t k) := by
  induction l generalizing t with
  | nil => simp
  | cons kv rest ih =>
    obtain ⟨a, b⟩ := kv
    have h := ih (putProp a (getProp s a) t)
    simp only [List.foldl_cons]
    refine ⟨?_, ?_⟩
    · rw [h.1, getProp_putProp]
      by_cases hr : k ∈ rest.map Prod.fst
      · have : k ∈ ((a, b) :: rest).map Prod.fst := by simp at hr ⊢; exact Or.inr hr
        simp [hr, this]
      · by_cases hka : k = a
        · subst hka; simp
        · have : ¬ k ∈ ((a, b) :: rest).map Prod.fst := by
            simp only [List.map_cons, List.mem_cons, not_or]; exact ⟨hka, hr⟩
          simp [hr, this, hka]
    · rw [h.2, hasProp_putProp]
      by_cases hka : k = a
      · subst hka; simp
      · simp only [hka, decide_False, Bool.false_or, List.map_cons, List.mem_cons, false_or]

theorem getProp_spreadInto (t s : JObj) (k : String) :
    getProp (spreadInto t s) k = if hasProp s k = true then getProp s k else getProp t k := by
  have h := (foldl_put_spec s s t k).1
  unfold spreadInto
  rw [h]
  by_cases hk : hasProp s k = true
  · simp [hk, (hasProp_iff_mem_keys s k).1 hk]
  · have : ¬ k ∈ s.map Prod.fst := fun hm => hk ((hasProp_iff_mem_keys s k).2 hm)
    simp [hk, this]

theorem hasProp_spreadInto (t s : JObj) (k : String) :
    hasProp (spreadInto t s) k = (hasProp s k || hasProp t k) := by
  have h := (foldl_put_spec s s t k).2
  unfold spreadInto
  rw [h]
  by_cases hk : hasProp s k = true
  · simp [hk, (hasProp_iff_mem_keys s k).1 hk]
  · have hm : ¬ k ∈ s.map Prod.fst := fun hm => hk ((hasProp_iff_mem_keys s k).2 hm)
    simp only [Bool.not_eq_true] at hk
    simp [hk, hm]

/-- Reading a property of `{ ...a, ...b }`: the value in `b` when `b` names the
key, the value in `a` otherwise. -/
theorem getProp_spread (a b : JObj) (k : String) :
    getProp (spread a b) k = if hasProp b k = true then getProp b k else getProp a k := by
  unfold spread
  rw [getProp_spreadInto, getProp_spreadInto]
  by_cases hb : hasProp b k = true
  · simp [hb]
  · by_cases ha : hasProp a k = true
    · simp [hb, ha]
    · simp only [Bool.not_eq_true] at ha
      simp [hb, ha, getProp_of_hasProp_false a k ha, getProp_nil]

theorem hasProp_spread (a b : JObj) (k : String) :
    hasProp (spread a b) k = (hasProp b k || hasProp a k) := by
  unfold spread
  rw [hasProp_spreadInto, hasProp_spreadInto]
  simp [hasProp_nil]

theorem findIndex_eq_none {α : Type} (p : α → Bool) (l : List α) :
    findIndex p l = none ↔ ∀ x ∈ l, p x = false := by
  induction l with
  | nil => simp [findIndex]
  | cons x xs ih =>
    by_cases hx : p x = true
    · simp [findIndex, hx]
    · simp only [Bool.not_eq_true] at hx
      simp [findIndex, hx, ih]

theorem findIndex_eq_some {α : Type} (p : α → Bool) (l : List α) (i : Nat)
    (h : findIndex p l = some i) :
    ∃ x, l[i]? = some x ∧ p x = true ∧ ∀ j y, j < i → l[j]? = some y → p y = false := by
  induction l generalizing i with
  | nil => simp [findIndex] at h
  | cons x xs ih =>
    by_cases hx : p x = true
    · simp [findIndex, hx] at h
      subst h
      exact ⟨x, by simp, hx, by intro j y hj; omega⟩
    · simp only [Bool.not_eq_true] at hx
      simp only [findIndex, hx, Bool.false_eq_true, if_false, Option.map_eq_some'] at h
      obtain ⟨i', hi', rfl⟩ := h
      obtain ⟨y, hy, hpy, hlt⟩ := ih i' hi'
      refine ⟨y, by simpa using hy, hpy, ?_⟩
      intro j z hj hz
      cases j with
      | zero => simp at hz; subst hz; exact hx
      | succ j' => exact hlt j' z (by omega) (by simpa using hz)

theorem findIndex_isSome_of_mem {α : Type} (p : α → Bool) (l : List α) (x : α)
    (hx : x ∈ l) (hp : p x = true) : ∃ i, findIndex p l = some i := by
  cases h : findIndex p l with
  | none =>
    have := (findIndex_eq_none p l).1 h x hx
    simp [hp] at this
  | some i => exact ⟨i, rfl⟩

theorem insertSorted_perm {α : Type} (cmp : α → α → Int) (x : α) (l : List α) :
    (insertSorted cmp x l).Perm (x :: l) := by
  induction l with
  | nil => simp [insertSorted]
  | cons y ys ih =>
    by_cases h : cmp x y > 0
    · simp only [insertSorted, h, if_true]
      exact (List.Perm.cons y ih).trans (List.Perm.swap x y ys)
    · simp [insertSorted, h]

theorem arraySort_perm {α : Type} (cmp : α → α → Int) (l : List α) :
    (arraySort cmp l).Perm l := by
  induction l with
  | nil => simp [arraySort]
  | cons x xs ih =>
    simp only [arraySort]
    exact (insertSorted_perm cmp x _).trans (List.Perm.cons x ih)

/-- The test `p.priority === 'Urgent'`. -/
def isUrgent (p : Patient) : Bool := p.priority.strictEqStr "Urgent"

theorem insertSorted_urgent (x : Patient) (l : List Patient) (hx : isUrgent x = true) :
    insertSorted queueCompare x l = x :: l := by
  cases l with
  | nil => rfl
  | cons y ys =>
    have : ¬ queueCompare x y > 0 := by
      unfold queueCompare
      unfold isUrgent at hx
      by_cases hy : y.priority.strictEqStr "Urgent" = true
      · simp [hx, hy]
      · simp only [Bool.not_eq_true] at hy
        simp [hx, hy]
    simp [insertSorted, this]

theorem insertSorted_normal (x : Patient) (us ns : List Patient) (hx : isUrgent x = false)
    (hus : ∀ p ∈ us, isUrgent p = true) (hns : ∀ p ∈ ns, isUrgent p = false) :
    insertSorted queueCompare x (us ++ ns) = us ++ x :: ns := by
  induction us with
  | nil =>
    cases ns with
    | nil => rfl
    | cons y ys =>
      have hy : isUrgent y = false := hns y (by simp)
      unfold isUrgent at hx hy
      have : ¬ queueCompare x y > 0 := by
        unfold queueCompare
        simp [hx, hy]
      simp [insertSorted, this]
  | cons u us ih =>
    have hu : isUrgent u = true := hus u (by simp)
    unfold isUrgent at hx hu
    have : queueCompare x u > 0 := by
      unfold queueCompare
      simp [hx, hu]
    have ih' := ih (fun p hp => hus p (by simp [hp]))
    rw [List.cons_append, insertSorted, if_pos this, ih', List.cons_append]

/-- The queue order is the stable two-way partition of the table. -/
theorem arraySort_queueCompare (l : List Patient) :
    arraySort queueCompare l
      = l.filter isUrgent ++ l.filter (fun p => !isUrgent p) := by
  induction l with
  | nil => rfl
  | cons x xs ih =>
    simp only [arraySort, ih]
    by_cases hx : isUrgent x = true
    · rw [insertSorted_urgent x _ hx]
      simp [List.filter, hx]
    · simp only [Bool.not_eq_true] at hx
      rw [insertSorted_normal x _ _ hx (by intro p hp; exact (List.mem_filter.1 hp).2)
        (by intro p hp; simpa using (List.mem_filter.1 hp).2)]
      simp [List.filter, hx]

theorem replacedAt_set {α : Type} (l : List α) (i : Nat) (x : α) (h : i < l.length) :
    ReplacedAt l (l.set i x) i x := by
  refine ⟨by simp, by simp [h], ?_⟩
  intro j hj
  exact List.getElem?_set_ne (Ne.symm hj)

theorem db_eta_patients (db : Db) : ({ db with patients := db.patients } : Db) = db := by
  cases db; rfl

theorem db_eta_doctors (db : Db) : ({ db with doctors := db.doctors } : Db) = db := by
  cases db; rfl

theorem db_eta_appointments (db : Db) : ({ db with appointments := db.appointments } : Db) = db := by
  cases db; rfl

theorem doctorHasId_iff (id : String) (d : Doctor) :
    doctorHasId id d = true ↔ getProp d "id" = .str id := by
  unfold doctorHasId
  exact strictEqStr_iff _ _

theorem doctorHasId_eq_false (id : String) (d : Doctor) :
    doctorHasId id d = false ↔ getProp d "id" ≠ .str id := by
  rw [Ne, ← doctorHasId_iff, Bool.not_eq_true]

theorem set_of_getElem? {α : Type} (l : List α) (i : Nat) (x : α) (h : l[i]? = some x) :
    l.set i x = l := by
  induction l generalizing i with
  | nil => rfl
  | cons y ys ih =>
    cases i with
    | zero => simp at h; simp [h]
    | succ i' => simp at h; simp [ih i' h]

theorem index_unique_of_nodup_map {α β : Type} (f : α → β) (l : List α) (i j : Nat) (a b : α)
    (hnd : (l.map f).Nodup) (hi : l[i]? = some a) (hj : l[j]? = some b) (hab : f a = f b) :
    i = j := by
  have key := List.nodup_iff_getElem?_ne_getElem?.1 hnd
  have hil : i < l.length := (List.getElem?_eq_some.1 hi).1
  have hjl : j < l.length := (List.getElem?_eq_some.1 hj).1
  rcases Nat.lt_trichotomy i j with hlt | heq | hgt
  · exact absurd (by simp [hi, hj, hab]) (key i j hlt (by simpa using hjl))
  · exact heq
  · exact absurd (by simp [hi, hj, hab]) (key j i hgt (by simpa using hil))

theorem updateDoctor_not_found (id : String) (body : JObj) (db : Db)
    (h : ∀ d ∈ db.doctors, getProp d "id" ≠ .str id) :
    updateDoctor id body db = (db, ⟨404, .error "Doctor not found."⟩) := by
  have hn : findIndex (doctorHasId id) db.doctors = none :=
    (findIndex_eq_none _ _).2 (fun d hd => (doctorHasId_eq_false id d).2 (h d hd))
  simp [updateDoctor, hn]

theorem updateDoctor_found (id : String) (body : JObj) (db : Db)
    (h : ∃ d ∈ db.doctors, getProp d "id" = .str id) :
    ∃ i old, db.doctors[i]? = some old ∧ getProp old "id" = .str id ∧
      (∀ j d, j < i → db.doctors[j]? = some d → getProp d "id" ≠ .str id) ∧
      updateDoctor id body db
        = ({ db with doctors := db.doctors.set i (spread old body) },
            ⟨200, .doctor (spread old body)⟩) := by
  obtain ⟨d, hd, hid⟩ := h
  obtain ⟨i, hi⟩ := findIndex_isSome_of_mem (doctorHasId id) db.doctors d hd
    ((doctorHasId_iff id d).2 hid)
  obtain ⟨old, hold, hp, hlt⟩ := findIndex_eq_some _ _ _ hi
  refine ⟨i, old, hold, (doctorHasId_iff id old).1 hp, ?_, ?_⟩
  · intro j y hj hy
    exact (doctorHasId_eq_false id y).1 (hlt j y hj hy)
  · simp [updateDoctor, hi, hold]

theorem doctorIds_update (ds : List Doctor) (i : Nat) (old : Doctor) (body : JObj)
    (hold : ds[i]? = some old) (hb : hasProp body "id" = false) :
    doctorIds (ds.set i (spread old body)) = doctorIds ds := by
  unfold doctorIds
  rw [List.map_set, getProp_spread]
  simp only [hb, Bool.false_eq_true, if_false]
  apply set_of_getElem?
  simp [hold]

theorem nodup_set_of_ne {α : Type} (l : List α) (i : Nat) (v : α) (hnd : l.Nodup)
    (hv : ∀ j, j ≠ i → l[j]? ≠ some v) : (l.set i v).Nodup := by
  have key := List.nodup_iff_getElem?_ne_getElem?.1 hnd
  rw [List.nodup_iff_getElem?_ne_getElem?]
  intro a b hab hb
  rw [List.length_set] at hb
  have ha : a < l.length := by omega
  by_cases hai : a = i
  · subst hai
    have hbi : b ≠ a := by omega
    rw [List.getElem?_set_self ha, List.getElem?_set_ne (Ne.symm hbi)]
    exact fun h => hv b hbi h.symm
  · by_cases hbi : b = i
    · subst hbi
      rw [List.getElem?_set_self hb, List.getElem?_set_ne (Ne.symm hai)]
      exact hv a hai
    · rw [List.getElem?_set_ne (Ne.symm hai), List.getElem?_set_ne (Ne.symm hbi)]
      exact key a b hab hb

theorem keepsDoctorIds_update_iff (db : Db) (id : String) (body : JObj) :
    keepsDoctorIds (.updateDoctor id body) db = true ↔
      (hasProp body "id" = false ∨ (∀ d ∈ db.doctors, getProp d "id" ≠ .str id) ∨
        (∀ d ∈ db.doctors, getProp d "id" = getProp body "id" → getProp d "id" = .str id)) := by
  simp only [keepsDoctorIds, Bool.or_eq_true, Bool.not_eq_true', List.all_eq_true,
    doctorHasId_eq_false, doctorHasId_iff, decide_eq_true_eq, or_assoc]
  constructor
  · rintro (h | h | h)
    · exact Or.inl h
    · exact Or.inr (Or.inl h)
    · refine Or.inr (Or.inr ?_)
      intro d hd hv
      rcases h d hd with h1 | h1
      · exact h1
      · exact absurd hv h1
  · rintro (h | h | h)
    · exact Or.inl h
    · exact Or.inr (Or.inl h)
    · refine Or.inr (Or.inr ?_)
      intro d hd
      by_cases hv : getProp d "id" = getProp body "id"
      · exact Or.inl (h d hd hv)
      · exact Or.inr hv

theorem doctorIds_nodup_update (db : Db) (id : String) (body : JObj)
    (hnd : (doctorIds db.doctors).Nodup)
    (hk : keepsDoctorIds (.updateDoctor id body) db = true) :
    (doctorIds (updateDoctor id body db).1.doctors).Nodup := by
  by_cases h : ∃ d ∈ db.doctors, getProp d "id" = .str id
  · obtain ⟨i, old, hold, hid, _, heq⟩ := updateDoctor_found id body db h
    rw [heq]
    simp only
    by_cases hb : hasProp body "id" = false
    · rw [doctorIds_update _ _ _ _ hold hb]
      exact hnd
    · simp only [Bool.not_eq_false] at hb
      rcases (keepsDoctorIds_update_iff db id body).1 hk with hk | hk | hk
      · rw [hk] at hb
        exact absurd hb (by decide)
      · exact absurd hid (hk old (List.getElem?_mem hold))
      · unfold doctorIds
        rw [List.map_set, getProp_spread]
        simp only [hb, if_true]
        apply nodup_set_of_ne _ _ _ hnd
        intro j hj hjv
        unfold doctorIds at hjv
        rw [List.getElem?_map] at hjv
        cases hd : db.doctors[j]? with
        | none => simp [hd] at hjv
        | some d =>
          simp only [hd, Option.map_some', Option.some.injEq] at hjv
          have hdid := hk d (List.getElem?_mem hd) hjv
          exact hj (index_unique_of_nodup_map (fun d => getProp d "id") db.doctors j i d old
            hnd hd hold (hdid.trans hid.symm))
  · rw [updateDoctor_not_found id body db (by
      intro d hd hid
      exact h ⟨d, hd, hid⟩)]
    exact hnd

theorem keepsDoctorIds_of_nodup_update (db : Db) (id : String) (body : JObj)
    (hafter : (doctorIds (updateDoctor id body db).1.doctors).Nodup) :
    keepsDoctorIds (.updateDoctor id body) db = true := by
  rw [keepsDoctorIds_update_iff]
  by_cases hb : hasProp body "id" = false
  · exact Or.inl hb
  · simp only [Bool.not_eq_false] at hb
    by_cases h : ∃ d ∈ db.doctors, getProp d "id" = .str id
    · refine Or.inr (Or.inr ?_)
      obtain ⟨i, old, hold, hid, _, heq⟩ := updateDoctor_found id body db h
      rw [heq] at hafter
      simp only at hafter
      intro d hd hv
      by_contra hne
      obtain ⟨j, hj⟩ := List.mem_iff_getElem?.1 hd
      have hji : j ≠ i := by
        intro hji
        subst hji
        rw [hold] at hj
        exact hne ((Option.some.inj hj) ▸ hid)
      have hil : i < db.doctors.length := (List.getElem?_eq_some.1 hold).1
      have h1 : (db.doctors.set i (spread old body))[j]? = some d := by
        rw [List.getElem?_set_ne (Ne.symm hji)]
        exact hj
      have h2 : (db.doctors.set i (spread old body))[i]? = some (spread old body) :=
        List.getElem?_set_self hil
      have hm : getProp (spread old body) "id" = getProp body "id" := by
        rw [getProp_spread]
        simp [hb]
      exact hji (index_unique_of_nodup_map (fun d => getProp d "id") _ j i d (spread old body)
        hafter h1 h2 (hv.trans hm.symm))
    · refine Or.inr (Or.inl ?_)
      intro d hd hid
      exact h ⟨d, hd, hid⟩

theorem doctorIds_nodup_handle (db : Db) (rq : Request)
    (hnd : (doctorIds db.doctors).Nodup) (hk : keepsDoctorIds rq db = true) :
    (doctorIds (handle rq db).1.doctors).Nodup := by
  cases rq with
  | createDoctor newId body =>
    simp only [handle, createDoctor]
    split
    · exact hnd
    · simp only [keepsDoctorIds, List.all_eq_true, Bool.not_eq_true', doctorHasId_eq_false] at hk
      simp only [doctorIds, List.map_append, List.map_cons, List.map_nil]
      rw [List.nodup_append]
      refine ⟨hnd, List.nodup_singleton _, ?_⟩
      intro v hv hv'
      simp only [List.mem_singleton] at hv'
      obtain ⟨d, hd, hdv⟩ := List.mem_map.1 hv
      apply hk d hd
      rw [hdv, hv']
      simp [getProp_cons]
  | updateDoctor id body => exact doctorIds_nodup_update db id body hnd hk
  | deleteDoctor id =>
    have hsub : (doctorIds (db.doctors.filter (fun d => !doctorHasId id d))).Sublist
        (doctorIds db.doctors) := List.Sublist.map _ (List.filter_sublist _)
    simp only [handle, deleteDoctor]
    split <;> exact List.Nodup.sublist hsub hnd
  | getQueue => exact hnd
  | getDoctors => exact hnd
  | getDoctor id =>
    simp only [handle, getDoctor]
    split <;> exact hnd
  | createPatient newId body =>
    simp only [handle, createPatient]
    split <;> exact hnd
  | updatePatient id body =>
    simp only [handle, updatePatient]
    split
    · exact hnd
    · split <;> exact hnd
  | deletePatient id =>
    simp only [handle, deletePatient]
    split <;> exact hnd
  | getAppointments => exact hnd
  | createAppointment newId body =>
    simp only [handle, createAppointment]
    split <;> exact hnd
  | updateAppointment id body =>
    simp only [handle, updateAppointment]
    split
    · exact hnd
    · split <;> exact hnd
  | deleteAppointment id =>
    simp only [handle, deleteAppointment]
    split <;> exact hnd

theorem falsy_of_absentOrEmpty (body : JObj) (k : String) (h : AbsentOrEmpty body k) :
    (getProp body k).truthy = false := by
  rcases h with h | h
  · rw [getProp_of_hasProp_false body k h]; rfl
  · rw [h]; rfl

theorem absentOrEmpty_of_falsy (body : JObj) (k : String) (ht : StringOrAbsent body k)
    (h : (getProp body k).truthy = false) : AbsentOrEmpty body k := by
  rcases ht with ht | ⟨s, hs⟩
  · exact Or.inl ht
  · right
    rw [hs] at h ⊢
    have : s = "" := by simpa [JVal.truthy] using h
    rw [this]

theorem doctor_filter_congr (id : String) (ds : List Doctor) :
    ds.filter (fun d => !doctorHasId id d)
      = ds.filter (fun d => decide (getProp d "id" ≠ .str id)) := by
  apply List.filter_congr
  intro d _
  by_cases h : doctorHasId id d = true
  · have := (doctorHasId_iff id d).1 h
    simp [h, this]
  · simp only [Bool.not_eq_true] at h
    have := (doctorHasId_eq_false id d).1 h
    simp [h, this]

theorem filter_length_succ_of_nodup {α β : Type} [DecidableEq β] (f : α → β) (l : List α)
    (v : β) (hnd : (l.map f).Nodup) (hx : ∃ x ∈ l, f x = v) :
    (l.filter (fun y => decide (f y ≠ v))).length + 1 = l.length := by
  induction l with
  | nil => simp at hx
  | cons y ys ih =>
    rw [List.map_cons, List.nodup_cons] at hnd
    obtain ⟨hy, hys⟩ := hnd
    by_cases hyv : f y = v
    · have hall : ∀ a ∈ ys, decide (f a ≠ v) = true := by
        intro a ha
        have : f a ≠ v := by
          intro hav
          exact hy (List.mem_map.2 ⟨a, ha, by rw [hav, hyv]⟩)
        simpa using this
      have hfil : ys.filter (fun y => decide (f y ≠ v)) = ys := List.filter_eq_self.2 hall
      have hny : decide (f y ≠ v) = false := by simp [hyv]
      simp only [List.filter_cons, hny, Bool.false_eq_true, if_false, hfil, List.length_cons]
    · obtain ⟨x, hxm, hxv⟩ := hx
      have hxy : x ∈ ys := by
        rcases List.mem_cons.1 hxm with h | h
        · exact absurd (h ▸ hxv) hyv
        · exact h
      have hlen := ih hys ⟨x, hxy, hxv⟩
      have hpy : decide (f y ≠ v) = true := decide_eq_true hyv
      simp only [List.filter_cons, hpy, if_true, List.length_cons, hlen]

theorem updatePatient_not_found (id : String) (body : JObj) (db : Db)
    (h : ∀ p ∈ db.patients, p.id ≠ id) :
    updatePatient id body db = (db, ⟨404, .error "Patient not found."⟩) := by
  have hn : findIndex (fun p : Patient => p.id == id) db.patients = none :=
    (findIndex_eq_none _ _).2 (fun p hp => by simp [h p hp])
  simp [updatePatient, hn]

theorem updatePatient_found (id : String) (body : JObj) (db : Db)
    (h : ∃ p ∈ db.patients, p.id = id) :
    ∃ i old, db.patients[i]? = some old ∧ old.id = id ∧
      (∀ j p, j < i → db.patients[j]? = some p → p.id ≠ id) ∧
      updatePatient id body db
        = (⟨db.patients.set i
              (applyPatientUpdate (getProp body "status") (getProp body "priority") old),
              db.doctors, db.appointments⟩,
            ⟨200, .patient
              (applyPatientUpdate (getProp body "status") (getProp body "priority") old)⟩) := by
  obtain ⟨p, hp, hid⟩ := h
  obtain ⟨i, hi⟩ := findIndex_isSome_of_mem (fun p : Patient => p.id == id) db.patients p hp
    (by simp [hid])
  obtain ⟨old, hold, hpo, hlt⟩ := findIndex_eq_some _ _ _ hi
  refine ⟨i, old, hold, by simpa using hpo, ?_, ?_⟩
  · intro j y hj hy
    simpa using hlt j y hj hy
  · simp [updatePatient, hi, hold]

theorem applyPatientUpdate_spec (status priority : JVal) (p : Patient) :
    (applyPatientUpdate status priority p).id = p.id ∧
    (applyPatientUpdate status priority p).name = p.name ∧
    (applyPatientUpdate status priority p).status
      = (if status.truthy = true then status else p.status) ∧
    (applyPatientUpdate status priority p).priority
      = (if priority.truthy = true then priority else p.priority) := by
  unfold applyPatientUpdate
  cases status.truthy <;> cases priority.truthy <;> simp

theorem updateAppointment_not_found (id : String) (body : JObj) (db : Db)
    (h : ∀ a ∈ db.appointments, a.id ≠ id) :
    updateAppointment id body db = (db, ⟨404, .error "Appointment not found."⟩) := by
  have hn : findIndex (fun a : Appointment => a.id == id) db.appointments = none :=
    (findIndex_eq_none _ _).2 (fun a ha => by simp [h a ha])
  simp [updateAppointment, hn]

theorem updateAppointment_found (id : String) (body : JObj) (db : Db)
    (h : ∃ a ∈ db.appointments, a.id = id) :
    ∃ i old, db.appointments[i]? = some old ∧ old.id = id ∧
      (∀ j a, j < i → db.appointments[j]? = some a → a.id ≠ id) ∧
      updateAppointment id body db
        = (⟨db.patients, db.doctors, db.appointments.set i
              ⟨old.id, old.patientName, old.doctorId, old.time, old.date,
                getProp body "status"⟩⟩,
            ⟨200, .appointment ⟨old.id, old.patientName, old.doctorId, old.time, old.date,
                getProp body "status"⟩⟩) := by
  obtain ⟨a, ha, hid⟩ := h
  obtain ⟨i, hi⟩ := findIndex_isSome_of_mem (fun a : Appointment => a.id == id)
    db.appointments a ha (by simp [hid])
  obtain ⟨old, hold, hpo, hlt⟩ := findIndex_eq_some _ _ _ hi
  refine ⟨i, old, hold, by simpa using hpo, ?_, ?_⟩
  · intro j y hj hy
    simpa using hlt j y hj hy
  · simp [updateAppointment, hi, hold]

/-! ## The queue view -/

/-- C1: for every state of the tables, `GET /api/queue` answers 200 with a list
that is a permutation of the patient table (every record, none added or dropped)
and in which no record whose priority is not "Urgent" stands before a record
whose priority is "Urgent". -/
theorem getQueue_urgent_first (db : Db) :
    ∃ q, (getQueue db).2 = ⟨200, .patients q⟩ ∧ q.Perm db.patients ∧
      q.Pairwise (fun a b => ¬ (a.priority ≠ .str "Urgent" ∧ b.priority = .str "Urgent")) := by
  refine ⟨arraySort queueCompare db.patients, rfl, arraySort_perm _ _, ?_⟩
  rw [arraySort_queueCompare, List.pairwise_append]
  refine ⟨?_, ?_, ?_⟩
  · apply List.pairwise_of_forall_mem_list
    intro a ha b _ h
    have hu : isUrgent a = true := (List.mem_filter.1 ha).2
    exact h.1 ((strictEqStr_iff _ _).1 hu)
  · apply List.pairwise_of_forall_mem_list
    intro a _ b hb h
    have hn := (List.mem_filter.1 hb).2
    have hu : isUrgent b = true := (strictEqStr_iff _ _).2 h.2
    simp [hu] at hn
  · intro a ha b _ h
    have hu : isUrgent a = true := (List.mem_filter.1 ha).2
    exact h.1 ((strictEqStr_iff _ _).1 hu)

/-- C2: on the seeded tables `GET /api/queue` does not leave the stored patient
table as it was: the stored order 1, 2, 3 becomes 3, 1, 2 (the in-place sort),
while the doctor and appointment tables stay as they were. -/
theorem getQueue_reorders_stored_patients :
    seedDb.patients.map (fun p => p.id) = ["1", "2", "3"] ∧
    (getQueue seedDb).1.patients.map (fun p => p.id) = ["3", "1", "2"] ∧
    (getQueue seedDb).1.patients ≠ seedDb.patients ∧
    (getQueue seedDb).1.doctors = seedDb.doctors ∧
    (getQueue seedDb).1.appointments = seedDb.appointments := by
  decide

/-! ## Doctors -/

/-- C3, as stated, fails: the identifiers of the seeded doctor table are pairwise
distinct, and after `PUT /api/doctors/d2` with the body whose only property is
`id` with value "d1" the table holds the identifier "d1" twice. -/
theorem updateDoctor_breaks_id_uniqueness :
    (doctorIds seedDb.doctors).Nodup ∧
    (updateDoctor "d2" [("id", .str "d1")] seedDb).2.status = 200 ∧
    doctorIds (updateDoctor "d2" [("id", .str "d1")] seedDb).1.doctors
      = [.str "d1", .str "d1", .str "d3", .str "d4"] ∧
    ¬ (doctorIds (updateDoctor "d2" [("id", .str "d1")] seedDb).1.doctors).Nodup := by
  decide

/-- C3, amended: if the identifiers of the doctor table are pairwise distinct
they are so again after any single request that is a doctor creation with a
generated identifier no record carries, a doctor deletion, a request on the other
resources, or a doctor update that does not hand the identifier of another record
to the updated one; for a doctor update this condition is also necessary, and it
holds in particular when the body does not name `id`, names the identifier of the
request itself, or names a value no record carries.  Hence the identifiers are
pairwise distinct in every state reached from the seeded tables by such
requests. -/
theorem doctorIds_unique_invariant :
    (∀ (db : Db) (rq : Request), (doctorIds db.doctors).Nodup →
        keepsDoctorIds rq db = true → (doctorIds (handle rq db).1.doctors).Nodup) ∧
    (∀ (db : Db) (id : String) (body : JObj), (doctorIds db.doctors).Nodup →
        ((doctorIds (updateDoctor id body db).1.doctors).Nodup ↔
          keepsDoctorIds (.updateDoctor id body) db = true)) ∧
    (∀ (db : Db) (id : String) (body : JObj),
        (hasProp body "id" = false ∨ getProp body "id" = .str id ∨
          (∀ d ∈ db.doctors, getProp d "id" ≠ getProp body "id")) →
        keepsDoctorIds (.updateDoctor id body) db = true) ∧
    (∀ db : Db, Reachable db → (doctorIds db.doctors).Nodup) := by
  refine ⟨doctorIds_nodup_handle, ?_, ?_, ?_⟩
  · intro db id body hnd
    exact ⟨keepsDoctorIds_of_nodup_update db id body, doctorIds_nodup_update db id body hnd⟩
  · intro db id body h
    rw [keepsDoctorIds_update_iff]
    rcases h with h | h | h
    · exact Or.inl h
    · refine Or.inr (Or.inr ?_)
      intro d _ hv
      exact hv.trans h
    · refine Or.inr (Or.inr ?_)
      intro d hd hv
      exact absurd hv (h d hd)
  · intro db hr
    induction hr with
    | seed => decide
    | step db rq _ hk ih => exact doctorIds_nodup_handle db rq ih hk

/-- C3, amended, at concrete requests on the seeded tables: creating a doctor
with the unused identifier "d5", updating doctor d2 with a body that repeats its
own identifier, updating it with the unused identifier "d7" and deleting doctor
d3 each keep the identifiers pairwise distinct, and so does a sequence of such
requests; the update of d2 with the identifier "d1" of another record is the one
that does not satisfy the condition. -/
theorem doctorIds_unique_invariant_witness :
    (doctorIds (handle (.createDoctor "d5" [("name", .str "Dr. Roe"),
        ("specialization", .str "ENT"), ("gender", .str "Female"),
        ("location", .str "Clinic C")]) seedDb).1.doctors).Nodup ∧
    (doctorIds (handle (.updateDoctor "d2" [("id", .str "d2"), ("status", .str "Available")])
        seedDb).1.doctors).Nodup ∧
    (doctorIds (updateDoctor "d2" [("id", .str "d7")] seedDb).1.doctors).Nodup ∧
    keepsDoctorIds (.updateDoctor "d2" [("id", .str "d1")]) seedDb = false ∧
    (doctorIds (handle (.deleteDoctor "d3")
        (handle (.updateDoctor "d2" [("id", .str "d7"), ("name", .str "Dr. J")])
          seedDb).1).1.doctors).Nodup :=
  ⟨doctorIds_unique_invariant.1 seedDb _ (by decide) (by decide),
   doctorIds_unique_invariant.1 seedDb _ (by decide)
     (doctorIds_unique_invariant.2.2.1 seedDb "d2" _ (Or.inr (Or.inl (by decide)))),
   (doctorIds_unique_invariant.2.1 seedDb "d2" [("id", .str "d7")] (by decide)).2 (by decide),
   by decide,
   doctorIds_unique_invariant.2.2.2 _
     (Reachable.step _ (.deleteDoctor "d3")
       (Reachable.step _ (.updateDoctor "d2" [("id", .str "d7"), ("name", .str "Dr. J")])
         Reachable.seed (by decide))
       (by decide))⟩

/-- C4: for every doctor table with pairwise distinct identifiers, identifier and
request body.  When some record carries the identifier, `PUT /api/doctors/:id`
answers 200 with a record `merged` in which every property named in the body has
the body's value (whether or not the record had it) and every property not named
in the body is as in the stored record (present or not, and its value); the table
afterwards is the old one with the record at the position of the (only) record
carrying the identifier replaced by `merged`, all other positions and the size
unchanged; the other two tables are unchanged.  When no record carries the
identifier the answer is 404 and nothing changes. -/
theorem updateDoctor_merge (db : Db) (id : String) (body : JObj)
    (hnd : (doctorIds db.doctors).Nodup) :
    ((∃ d ∈ db.doctors, getProp d "id" = .str id) →
      ∃ i old merged,
        db.doctors[i]? = some old ∧ getProp old "id" = .str id ∧
        (∀ j d, db.doctors[j]? = some d → getProp d "id" = .str id → j = i) ∧
        (∀ k, hasProp body k = true →
          hasProp merged k = true ∧ getProp merged k = getProp body k) ∧
        (∀ k, hasProp body k = false →
          hasProp merged k = hasProp old k ∧ getProp merged k = getProp old k) ∧
        (updateDoctor id body db).2 = ⟨200, .doctor merged⟩ ∧
        ReplacedAt db.doctors (updateDoctor id body db).1.doctors i merged ∧
        (updateDoctor id body db).1.patients = db.patients ∧
        (updateDoctor id body db).1.appointments = db.appointments) ∧
    ((∀ d ∈ db.doctors, getProp d "id" ≠ .str id) →
      updateDoctor id body db = (db, ⟨404, .error "Doctor not found."⟩)) := by
  refine ⟨?_, updateDoctor_not_found id body db⟩
  intro h
  obtain ⟨i, old, hold, hid, _, heq⟩ := updateDoctor_found id body db h
  refine ⟨i, old, spread old body, hold, hid, ?_, ?_, ?_, ?_, ?_, ?_, ?_⟩
  · intro j d hj hd
    exact index_unique_of_nodup_map (fun d => getProp d "id") db.doctors j i d old hnd hj hold
      (hd.trans hid.symm)
  · intro k hk
    rw [hasProp_spread, getProp_spread]
    simp [hk]
  · intro k hk
    rw [hasProp_spread, getProp_spread]
    simp [hk]
  · rw [heq]
  · rw [heq]
    exact replacedAt_set _ _ _ (List.getElem?_eq_some.1 hold).1
  · rw [heq]
  · rw [heq]

/-- C4 at concrete requests on the seeded table (identifiers pairwise distinct):
`PUT /api/doctors/d2` with status "Available" and the new property `room` is
answered 200 with a record that has these two values and the old name, the
record taking the second position of the table; the table and response are as
computed; an unknown identifier is answered 404. -/
theorem updateDoctor_merge_witness :
    (doctorIds seedDb.doctors).Nodup ∧
    (∃ merged : Doctor,
      (updateDoctor "d2" [("status", .str "Available"), ("room", .num 7)] seedDb).2
        = ⟨200, .doctor merged⟩ ∧
      getProp merged "status" = .str "Available" ∧ getProp merged "room" = .num 7 ∧
      getProp merged "name" = .str "Dr. Johnson" ∧
      ReplacedAt seedDb.doctors
        (updateDoctor "d2" [("status", .str "Available"), ("room", .num 7)] seedDb).1.doctors
        1 merged) ∧
    updateDoctor "d2" [("status", .str "Available"), ("room", .num 7)] seedDb
      = (⟨seedPatients,
          [ seedDoctor "d1" "Dr. Smith" "General Practice" "Available" "Male" "Clinic A",
            seedDoctor "d2" "Dr. Johnson" "Pediatrics" "Available" "Female" "Clinic B"
              ++ [("room", .num 7)],
            seedDoctor "d3" "Dr. Lee" "Cardiology" "Off Duty" "Female" "Clinic A",
            seedDoctor "d4" "Dr. Patel" "Dermatology" "Available" "Male" "Clinic B" ], []⟩,
         ⟨200, .doctor (seedDoctor "d2" "Dr. Johnson" "Pediatrics" "Available" "Female" "Clinic B"
              ++ [("room", .num 7)])⟩) ∧
    updateDoctor "d9" [("status", .str "Available")] seedDb
      = (seedDb, ⟨404, .error "Doctor not found."⟩) := by
  refine ⟨by decide, ?_, by decide,
    (updateDoctor_merge seedDb "d9" [("status", .str "Available")] (by decide)).2 (by decide)⟩
  obtain ⟨i, old, merged, hold, _, huniq, hin, hout, hresp, hrep, _⟩ :=
    (updateDoctor_merge seedDb "d2" [("status", .str "Available"), ("room", .num 7)]
      (by decide)).1
      ⟨seedDoctor "d2" "Dr. Johnson" "Pediatrics" "Busy" "Female" "Clinic B",
        by decide, by decide⟩
  have hi : 1 = i :=
    huniq 1 (seedDoctor "d2" "Dr. Johnson" "Pediatrics" "Busy" "Female" "Clinic B")
      (by decide) (by decide)
  subst hi
  have hold2 : old = seedDoctor "d2" "Dr. Johnson" "Pediatrics" "Busy" "Female" "Clinic B" :=
    (Option.some.inj hold).symm
  refine ⟨merged, hresp, ?_, ?_, ?_, hrep⟩
  · exact (hin "status" (by decide)).2.trans (by decide)
  · exact (hin "room" (by decide)).2.trans (by decide)
  · rw [(hout "name" (by decide)).2, hold2]
    decide

/-- C5: for every doctor table, generated identifier and request body.
`POST /api/doctors` answers 400 exactly when one of name, specialization, gender,
location is falsy in the body; when each of the four is left out or given as a
string, that is exactly when one of them is left out or is the empty string.  With
400 nothing changes.  Otherwise the answer is 201 with the record made of the
generated identifier, the four values of the body and status "Available"
(whatever else the body names), the doctor table afterwards is the old one with
that record added at the end, and the record's identifier differs from every
identifier of the old table when the generated identifier does. -/
theorem createDoctor_spec (db : Db) (newId : String) (body : JObj) :
    ((createDoctor newId body db).2.status = 400 ↔
      ((getProp body "name").truthy = false ∨ (getProp body "specialization").truthy = false ∨
       (getProp body "gender").truthy = false ∨ (getProp body "location").truthy = false)) ∧
    (StringOrAbsent body "name" → StringOrAbsent body "specialization" →
      StringOrAbsent body "gender" → StringOrAbsent body "location" →
      ((createDoctor newId body db).2.status = 400 ↔
        (AbsentOrEmpty body "name" ∨ AbsentOrEmpty body "specialization" ∨
         AbsentOrEmpty body "gender" ∨ AbsentOrEmpty body "location"))) ∧
    ((createDoctor newId body db).2.status = 400 →
      createDoctor newId body db
        = (db, ⟨400, .error "All fields are required for a new doctor."⟩)) ∧
    ((createDoctor newId body db).2.status ≠ 400 →
      ∃ newDoctor : Doctor,
        newDoctor = [("id", .str newId), ("name", getProp body "name"),
          ("specialization", getProp body "specialization"), ("gender", getProp body "gender"),
          ("location", getProp body "location"), ("status", .str "Available")] ∧
        getProp newDoctor "id" = .str newId ∧
        getProp newDoctor "status" = .str "Available" ∧
        (createDoctor newId body db).2 = ⟨201, .doctor newDoctor⟩ ∧
        (createDoctor newId body db).1.doctors = db.doctors ++ [newDoctor] ∧
        (createDoctor newId body db).1.patients = db.patients ∧
        (createDoctor newId body db).1.appointments = db.appointments ∧
        ((∀ d ∈ db.doctors, getProp d "id" ≠ .str newId) →
          ∀ d ∈ db.doctors, getProp d "id" ≠ getProp newDoctor "id")) := by
  have key : (createDoctor newId body db).2.status = 400 ↔
      ((getProp body "name").truthy = false ∨ (getProp body "specialization").truthy = false ∨
       (getProp body "gender").truthy = false ∨ (getProp body "location").truthy = false) := by
    cases h1 : (getProp body "name").truthy <;>
      cases h2 : (getProp body "specialization").truthy <;>
      cases h3 : (getProp body "gender").truthy <;>
      cases h4 : (getProp body "location").truthy <;>
      simp [createDoctor, h1, h2, h3, h4]
  refine ⟨key, ?_, ?_, ?_⟩
  · intro h1 h2 h3 h4
    rw [key]
    constructor
    · rintro (h | h | h | h)
      · exact Or.inl (absentOrEmpty_of_falsy _ _ h1 h)
      · exact Or.inr (Or.inl (absentOrEmpty_of_falsy _ _ h2 h))
      · exact Or.inr (Or.inr (Or.inl (absentOrEmpty_of_falsy _ _ h3 h)))
      · exact Or.inr (Or.inr (Or.inr (absentOrEmpty_of_falsy _ _ h4 h)))
    · rintro (h | h | h | h)
      · exact Or.inl (falsy_of_absentOrEmpty _ _ h)
      · exact Or.inr (Or.inl (falsy_of_absentOrEmpty _ _ h))
      · exact Or.inr (Or.inr (Or.inl (falsy_of_absentOrEmpty _ _ h)))
      · exact Or.inr (Or.inr (Or.inr (falsy_of_absentOrEmpty _ _ h)))
  · intro h
    have hk := key.1 h
    unfold createDoctor
    rcases hk with h | h | h | h <;> simp [h]
  · intro h
    have hk : ¬ ((getProp body "name").truthy = false ∨
        (getProp body "specialization").truthy = false ∨
        (getProp body "gender").truthy = false ∨ (getProp body "location").truthy = false) :=
      fun hf => h (key.2 hf)
    simp only [not_or, Bool.not_eq_false] at hk
    obtain ⟨h1, h2, h3, h4⟩ := hk
    refine ⟨_, rfl, by simp [getProp_cons], by simp [getProp_cons], ?_, ?_, ?_, ?_, ?_⟩
    · simp [createDoctor, h1, h2, h3, h4]
    · simp [createDoctor, h1, h2, h3, h4]
    · simp [createDoctor, h1, h2, h3, h4]
    · simp [createDoctor, h1, h2, h3, h4]
    · intro hfresh d hd
      have : getProp [("id", JVal.str newId), ("name", getProp body "name"),
          ("specialization", getProp body "specialization"), ("gender", getProp body "gender"),
          ("location", getProp body "location"), ("status", JVal.str "Available")] "id"
          = .str newId := by simp [getProp_cons]
      rw [this]
      exact hfresh d hd

/-- C5 at concrete requests on the seeded tables: a body with the four fields
(and a status of its own) is answered 201 with status "Available" and the record
is added after d4; a body whose gender is the empty string is answered 400. -/
theorem createDoctor_spec_witness :
    createDoctor "d5" [("name", .str "Dr. Roe"), ("specialization", .str "ENT"),
        ("gender", .str "Female"), ("location", .str "Clinic C"), ("status", .str "Busy")] seedDb
      = (⟨seedPatients, seedDoctors ++ [[("id", .str "d5"), ("name", .str "Dr. Roe"),
            ("specialization", .str "ENT"), ("gender", .str "Female"),
            ("location", .str "Clinic C"), ("status", .str "Available")]], []⟩,
         ⟨201, .doctor [("id", .str "d5"), ("name", .str "Dr. Roe"),
            ("specialization", .str "ENT"), ("gender", .str "Female"),
            ("location", .str "Clinic C"), ("status", .str "Available")]⟩) ∧
    createDoctor "d5" [("name", .str "Dr. Roe"), ("specialization", .str "ENT"),
        ("gender", .str ""), ("location", .str "Clinic C")] seedDb
      = (seedDb, ⟨400, .error "All fields are required for a new doctor."⟩) :=
  ⟨by decide,
   (createDoctor_spec seedDb "d5" [("name", .str "Dr. Roe"), ("specialization", .str "ENT"),
        ("gender", .str ""), ("location", .str "Clinic C")]).2.2.1 (by decide)⟩

/-- C8: for each of the three tables, every state and every identifier: when no
record of the table carries the identifier, the DELETE request answers 404 and
leaves all tables as they were (same records, same order, same size); and a 404
answer is given only when no record of the table carries the identifier. -/
theorem delete_absent_rejected (db : Db) (id : String) :
    ((∀ d ∈ db.doctors, getProp d "id" ≠ .str id) →
      deleteDoctor id db = (db, ⟨404, .error "Doctor not found."⟩)) ∧
    ((deleteDoctor id db).2.status = 404 → ∀ d ∈ db.doctors, getProp d "id" ≠ .str id) ∧
    ((∀ p ∈ db.patients, p.id ≠ id) →
      deletePatient id db = (db, ⟨404, .error "Patient not found."⟩)) ∧
    ((deletePatient id db).2.status = 404 → ∀ p ∈ db.patients, p.id ≠ id) ∧
    ((∀ a ∈ db.appointments, a.id ≠ id) →
      deleteAppointment id db = (db, ⟨404, .error "Appointment not found."⟩)) ∧
    ((deleteAppointment id db).2.status = 404 → ∀ a ∈ db.appointments, a.id ≠ id) := by
  refine ⟨?_, ?_, ?_, ?_, ?_, ?_⟩
  · intro h
    have hall : ∀ d ∈ db.doctors, (!doctorHasId id d) = true := by
      intro d hd
      simp [(doctorHasId_eq_false id d).2 (h d hd)]
    simp [deleteDoctor, List.filter_eq_self.2 hall, db_eta_doctors]
  · intro h d hd
    have hlen : (db.doctors.filter (fun d => !doctorHasId id d)).length = db.doctors.length := by
      by_contra hne
      simp [deleteDoctor, hne] at h
    have := List.filter_length_eq_length.1 hlen d hd
    exact (doctorHasId_eq_false id d).1 (by simpa using this)
  · intro h
    have hall : ∀ p ∈ db.patients, (!(p.id == id)) = true := by
      intro p hp
      simp [h p hp]
    simp [deletePatient, List.filter_eq_self.2 hall, db_eta_patients]
  · intro h p hp
    have hlen : (db.patients.filter (fun p => !(p.id == id))).length = db.patients.length := by
      by_contra hne
      simp [deletePatient, hne] at h
    have := List.filter_length_eq_length.1 hlen p hp
    simpa using this
  · intro h
    have hall : ∀ a ∈ db.appointments, (!(a.id == id)) = true := by
      intro a ha
      simp [h a ha]
    simp [deleteAppointment, List.filter_eq_self.2 hall, db_eta_appointments]
  · intro h a ha
    have hlen : (db.appointments.filter (fun a => !(a.id == id))).length
        = db.appointments.length := by
      by_contra hne
      simp [deleteAppointment, hne] at h
    have := List.filter_length_eq_length.1 hlen a ha
    simpa using this

/-- C8 at concrete requests on the seeded tables: deleting doctor "d9", patient
"9" and appointment "a1", none of which exists, is answered 404 each time and the
tables stay as seeded. -/
theorem delete_absent_rejected_witness :
    deleteDoctor "d9" seedDb = (seedDb, ⟨404, .error "Doctor not found."⟩) ∧
    deletePatient "9" seedDb = (seedDb, ⟨404, .error "Patient not found."⟩) ∧
    deleteAppointment "a1" seedDb = (seedDb, ⟨404, .error "Appointment not found."⟩) :=
  ⟨(delete_absent_rejected seedDb "d9").1 (by decide),
   (delete_absent_rejected seedDb "9").2.2.1 (by decide),
   (delete_absent_rejected seedDb "a1").2.2.2.2.1 (by decide)⟩

/-- C9: for every state and every identifier carried by some doctor record:
`DELETE /api/doctors/:id` answers 204 with no content; the doctor table afterwards
is the old one restricted to the records with a different identifier, in their
original order, so it has no record with that identifier and has every record
with another one; with pairwise distinct identifiers its size is one less; the
other tables are unchanged; and `GET /api/doctors/:id` with the same identifier on
the resulting state answers 404. -/
theorem deleteDoctor_then_get (db : Db) (id : String)
    (h : ∃ d ∈ db.doctors, getProp d "id" = .str id) :
    (deleteDoctor id db).2 = ⟨204, .empty⟩ ∧
    (deleteDoctor id db).1.doctors
      = db.doctors.filter (fun d => decide (getProp d "id" ≠ .str id)) ∧
    (∀ d ∈ (deleteDoctor id db).1.doctors, getProp d "id" ≠ .str id) ∧
    (∀ d ∈ db.doctors, getProp d "id" ≠ .str id → d ∈ (deleteDoctor id db).1.doctors) ∧
    ((deleteDoctor id db).1.doctors).Sublist db.doctors ∧
    ((doctorIds db.doctors).Nodup →
      (deleteDoctor id db).1.doctors.length + 1 = db.doctors.length) ∧
    (deleteDoctor id db).1.patients = db.patients ∧
    (deleteDoctor id db).1.appointments = db.appointments ∧
    getDoctor id (deleteDoctor id db).1
      = ((deleteDoctor id db).1, ⟨404, .error "Doctor not found."⟩) := by
  have hlen : ¬ (db.doctors.filter (fun d => !doctorHasId id d)).length = db.doctors.length := by
    intro hl
    obtain ⟨d, hd, hid⟩ := h
    have := List.filter_length_eq_length.1 hl d hd
    simp [(doctorHasId_iff id d).2 hid] at this
  have hdocs : (deleteDoctor id db).1.doctors
      = db.doctors.filter (fun d => decide (getProp d "id" ≠ .str id)) := by
    rw [← doctor_filter_congr]
    simp only [deleteDoctor]
    split <;> rfl
  have hnone : ∀ d ∈ (deleteDoctor id db).1.doctors, getProp d "id" ≠ .str id := by
    intro d hd
    rw [hdocs] at hd
    simpa using (List.mem_filter.1 hd).2
  refine ⟨?_, hdocs, hnone, ?_, ?_, ?_, ?_, ?_, ?_⟩
  · simp [deleteDoctor, hlen]
  · intro d hd hid
    rw [hdocs]
    exact List.mem_filter.2 ⟨hd, by simpa using hid⟩
  · rw [hdocs]
    exact List.filter_sublist _
  · intro hnd
    rw [hdocs]
    obtain ⟨d, hd, hid⟩ := h
    exact filter_length_succ_of_nodup (fun d => getProp d "id") db.doctors (.str id) hnd
      ⟨d, hd, hid⟩
  · simp only [deleteDoctor]
    split <;> rfl
  · simp only [deleteDoctor]
    split <;> rfl
  · have hfind : List.find? (doctorHasId id) (deleteDoctor id db).1.doctors = none := by
      rw [List.find?_eq_none]
      intro d hd
      have := (doctorHasId_eq_false id d).2 (hnone d hd)
      simp [this]
    simp [getDoctor, hfind]

/-- C9 on the seeded tables: `DELETE /api/doctors/d2` answers 204, then
`GET /api/doctors/d2` answers 404, and d1, d3, d4 are left in that order. -/
theorem deleteDoctor_then_get_witness :
    (deleteDoctor "d2" seedDb).2 = ⟨204, .empty⟩ ∧
    (getDoctor "d2" (deleteDoctor "d2" seedDb).1).2.status = 404 ∧
    doctorIds (deleteDoctor "d2" seedDb).1.doctors = [.str "d1", .str "d3", .str "d4"] ∧
    (deleteDoctor "d2" seedDb).1.doctors.length + 1 = seedDb.doctors.length :=
  ⟨(deleteDoctor_then_get seedDb "d2" (by decide)).1,
   by decide, by decide,
   (deleteDoctor_then_get seedDb "d2" (by decide)).2.2.2.2.2.1 (by decide)⟩

/-! ## Patients -/

/-- C10: for every state, generated identifier and request body.  When name is
falsy in the body (in particular left out or the empty string)
`POST /api/patients` answers 400 and nothing changes.  When name is truthy (in
particular a non-empty string) the answer is 201 with the record made of the
generated identifier, that name, status "Waiting" and priority "Normal", whatever
status or priority the body names, and the patient table afterwards is the old one
with that record added at the end; the other tables are unchanged. -/
theorem createPatient_spec (db : Db) (newId : String) (body : JObj) :
    ((getProp body "name").truthy = false →
      createPatient newId body db = (db, ⟨400, .error "Patient name is required."⟩)) ∧
    (AbsentOrEmpty body "name" →
      createPatient newId body db = (db, ⟨400, .error "Patient name is required."⟩)) ∧
    ((getProp body "name").truthy = true →
      createPatient newId body db
        = (⟨db.patients ++ [⟨newId, getProp body "name", .str "Waiting", .str "Normal"⟩],
            db.doctors, db.appointments⟩,
           ⟨201, .patient ⟨newId, getProp body "name", .str "Waiting", .str "Normal"⟩⟩)) ∧
    (∀ s : String, s ≠ "" → getProp body "name" = .str s →
      createPatient newId body db
        = (⟨db.patients ++ [⟨newId, .str s, .str "Waiting", .str "Normal"⟩],
            db.doctors, db.appointments⟩,
           ⟨201, .patient ⟨newId, .str s, .str "Waiting", .str "Normal"⟩⟩)) := by
  have h400 : (getProp body "name").truthy = false →
      createPatient newId body db = (db, ⟨400, .error "Patient name is required."⟩) := by
    intro h
    simp [createPatient, h]
  have h201 : (getProp body "name").truthy = true →
      createPatient newId body db
        = (⟨db.patients ++ [⟨newId, getProp body "name", .str "Waiting", .str "Normal"⟩],
            db.doctors, db.appointments⟩,
           ⟨201, .patient ⟨newId, getProp body "name", .str "Waiting", .str "Normal"⟩⟩) := by
    intro h
    simp [createPatient, h]
  refine ⟨h400, fun h => h400 (falsy_of_absentOrEmpty _ _ h), h201, ?_⟩
  intro s hs hname
  have := h201 (by rw [hname]; exact (truthy_str s).2 hs)
  rw [hname] at this
  exact this

/-- C10 at concrete requests on the seeded tables: a body without name is answered
400 and nothing is added; name "Ann" together with a status and a priority of the
body's own is answered 201 with status "Waiting" and priority "Normal", the
record being added after patient 3. -/
theorem createPatient_spec_witness :
    createPatient "p4" [("status", .str "With Doctor")] seedDb
      = (seedDb, ⟨400, .error "Patient name is required."⟩) ∧
    createPatient "p4" [("name", .str "Ann"), ("status", .str "With Doctor"),
        ("priority", .str "Urgent")] seedDb
      = (⟨seedPatients ++ [⟨"p4", .str "Ann", .str "Waiting", .str "Normal"⟩], seedDoctors, []⟩,
         ⟨201, .patient ⟨"p4", .str "Ann", .str "Waiting", .str "Normal"⟩⟩) :=
  ⟨(createPatient_spec seedDb "p4" [("status", .str "With Doctor")]).2.1 (by decide),
   (createPatient_spec seedDb "p4" [("name", .str "Ann"), ("status", .str "With Doctor"),
        ("priority", .str "Urgent")]).2.2.2 "Ann" (by decide) (by decide)⟩

/-- C6: for every state, identifier and request body.  When some patient record
carries the identifier, `PUT /api/patients/:id` answers 200 with the record `new`
that replaces the first such record `old` in the table, every other position, the
size and the other tables being unchanged; `new` has the id and name of `old`;
its status is that of `old` when the body's status is falsy (in particular left
out, the empty string or `false`) and the body's status when that is truthy (in
particular a non-empty string); and the same, independently, for priority.  When
no record carries the identifier the answer is 404 and nothing changes. -/
theorem updatePatient_spec (db : Db) (id : String) (body : JObj) :
    ((∃ p ∈ db.patients, p.id = id) →
      ∃ i old new,
        db.patients[i]? = some old ∧ old.id = id ∧
        (∀ j p, j < i → db.patients[j]? = some p → p.id ≠ id) ∧
        (updatePatient id body db).2 = ⟨200, .patient new⟩ ∧
        ReplacedAt db.patients (updatePatient id body db).1.patients i new ∧
        (updatePatient id body db).1.doctors = db.doctors ∧
        (updatePatient id body db).1.appointments = db.appointments ∧
        new.id = old.id ∧ new.name = old.name ∧
        ((getProp body "status").truthy = false → new.status = old.status) ∧
        ((getProp body "status").truthy = true → new.status = getProp body "status") ∧
        ((getProp body "priority").truthy = false → new.priority = old.priority) ∧
        ((getProp body "priority").truthy = true → new.priority = getProp body "priority") ∧
        (hasProp body "status" = false ∨ getProp body "status" = .str "" ∨
            getProp body "status" = .bool false → new.status = old.status) ∧
        (∀ s : String, s ≠ "" → getProp body "status" = .str s → new.status = .str s) ∧
        (hasProp body "priority" = false ∨ getProp body "priority" = .str "" ∨
            getProp body "priority" = .bool false → new.priority = old.priority) ∧
        (∀ s : String, s ≠ "" → getProp body "priority" = .str s → new.priority = .str s)) ∧
    ((∀ p ∈ db.patients, p.id ≠ id) →
      updatePatient id body db = (db, ⟨404, .error "Patient not found."⟩)) := by
  refine ⟨?_, updatePatient_not_found id body db⟩
  intro h
  obtain ⟨i, old, hold, hid, hfirst, heq⟩ := updatePatient_found id body db h
  obtain ⟨h1, h2, h3, h4⟩ :=
    applyPatientUpdate_spec (getProp body "status") (getProp body "priority") old
  have hsF : (getProp body "status").truthy = false →
      (applyPatientUpdate (getProp body "status") (getProp body "priority") old).status
        = old.status := by
    intro hf; rw [h3]; simp [hf]
  have hsT : (getProp body "status").truthy = true →
      (applyPatientUpdate (getProp body "status") (getProp body "priority") old).status
        = getProp body "status" := by
    intro hf; rw [h3]; simp [hf]
  have hpF : (getProp body "priority").truthy = false →
      (applyPatientUpdate (getProp body "status") (getProp body "priority") old).priority
        = old.priority := by
    intro hf; rw [h4]; simp [hf]
  have hpT : (getProp body "priority").truthy = true →
      (applyPatientUpdate (getProp body "status") (getProp body "priority") old).priority
        = getProp body "priority" := by
    intro hf; rw [h4]; simp [hf]
  refine ⟨i, old, applyPatientUpdate (getProp body "status") (getProp body "priority") old,
    hold, hid, hfirst, by rw [heq], ?_, by rw [heq], by rw [heq], h1, h2,
    hsF, hsT, hpF, hpT, ?_, ?_, ?_, ?_⟩
  · rw [heq]
    exact replacedAt_set _ _ _ (List.getElem?_eq_some.1 hold).1
  · rintro (hc | hc | hc)
    · exact hsF (falsy_of_absentOrEmpty _ _ (Or.inl hc))
    · exact hsF (falsy_of_absentOrEmpty _ _ (Or.inr hc))
    · exact hsF (by rw [hc]; rfl)
  · intro s hs hc
    rw [hsT (by rw [hc]; exact (truthy_str s).2 hs), hc]
  · rintro (hc | hc | hc)
    · exact hpF (falsy_of_absentOrEmpty _ _ (Or.inl hc))
    · exact hpF (falsy_of_absentOrEmpty _ _ (Or.inr hc))
    · exact hpF (by rw [hc]; rfl)
  · intro s hs hc
    rw [hpT (by rw [hc]; exact (truthy_str s).2 hs), hc]

/-- C6 at concrete requests on the seeded tables: for patient 2 (status
"With Doctor", priority "Normal") an empty-string status changes nothing, a body
with only priority "Urgent" changes the priority and keeps the status, and an
unknown identifier is answered 404. -/
theorem updatePatient_spec_witness :
    updatePatient "2" [("status", .str "")] seedDb
      = (seedDb, ⟨200, .patient ⟨"2", .str "Jane Smith", .str "With Doctor", .str "Normal"⟩⟩) ∧
    (updatePatient "2" [("priority", .str "Urgent")] seedDb).2
      = ⟨200, .patient ⟨"2", .str "Jane Smith", .str "With Doctor", .str "Urgent"⟩⟩ ∧
    updatePatient "7" [("status", .str "Waiting")] seedDb
      = (seedDb, ⟨404, .error "Patient not found."⟩) :=
  ⟨by decide, by decide,
   (updatePatient_spec seedDb "7" [("status", .str "Waiting")]).2 (by decide)⟩

/-! ## Appointments -/

/-- C7: for every state, identifier and request body.  When some appointment
record carries the identifier, `PUT /api/appointments/:id` answers 200 with the
record `new` that replaces the first such record `old` in the table, every other
position, the size and the other tables being unchanged; `new` has the id,
patientName, doctorId, time and date of `old` and its status is the body's status
whatever that is: the empty string when the body says so, `undefined` when the
body names no status.  When no record carries the identifier the answer is 404
and nothing changes.  For a body whose status is the empty string, the patient
update answers with the old status of the patient while the appointment update
answers with the empty status. -/
theorem updateAppointment_spec (db : Db) (id : String) (body : JObj) :
    ((∃ a ∈ db.appointments, a.id = id) →
      ∃ i old new,
        db.appointments[i]? = some old ∧ old.id = id ∧
        (∀ j a, j < i → db.appointments[j]? = some a → a.id ≠ id) ∧
        (updateAppointment id body db).2 = ⟨200, .appointment new⟩ ∧
        ReplacedAt db.appointments (updateAppointment id body db).1.appointments i new ∧
        (updateAppointment id body db).1.patients = db.patients ∧
        (updateAppointment id body db).1.doctors = db.doctors ∧
        new.id = old.id ∧ new.patientName = old.patientName ∧ new.doctorId = old.doctorId ∧
        new.time = old.time ∧ new.date = old.date ∧
        new.status = getProp body "status" ∧
        (getProp body "status" = .str "" → new.status = .str "") ∧
        (hasProp body "status" = false → new.status = .undefined)) ∧
    ((∀ a ∈ db.appointments, a.id ≠ id) →
      updateAppointment id body db = (db, ⟨404, .error "Appointment not found."⟩)) ∧
    (∀ pid : String, getProp body "status" = .str "" →
      (∃ p ∈ db.patients, p.id = pid) → (∃ a ∈ db.appointments, a.id = id) →
      ∃ (i : Nat) (oldP newP : Patient) (j : Nat) (oldA newA : Appointment),
        db.patients[i]? = some oldP ∧ oldP.id = pid ∧
        (updatePatient pid body db).2 = ⟨200, .patient newP⟩ ∧ newP.status = oldP.status ∧
        db.appointments[j]? = some oldA ∧ oldA.id = id ∧
        (updateAppointment id body db).2 = ⟨200, .appointment newA⟩ ∧
        newA.status = .str "") := by
  refine ⟨?_, updateAppointment_not_found id body db, ?_⟩
  · intro h
    obtain ⟨i, old, hold, hid, hfirst, heq⟩ := updateAppointment_found id body db h
    refine ⟨i, old, ⟨old.id, old.patientName, old.doctorId, old.time, old.date,
      getProp body "status"⟩, hold, hid, hfirst, by rw [heq], ?_, by rw [heq], by rw [heq],
      rfl, rfl, rfl, rfl, rfl, rfl, ?_, ?_⟩
    · rw [heq]
      exact replacedAt_set _ _ _ (List.getElem?_eq_some.1 hold).1
    · intro hc
      exact hc
    · intro hc
      exact getProp_of_hasProp_false _ _ hc
  · intro pid hst hp ha
    obtain ⟨i, oldP, holdP, hidP, _, heqP⟩ := updatePatient_found pid body db hp
    obtain ⟨j, oldA, holdA, hidA, _, heqA⟩ := updateAppointment_found id body db ha
    refine ⟨i, oldP, applyPatientUpdate (getProp body "status") (getProp body "priority") oldP,
      j, oldA, ⟨oldA.id, oldA.patientName, oldA.doctorId, oldA.time, oldA.date,
        getProp body "status"⟩, holdP, hidP, by rw [heqP], ?_, holdA, hidA, by rw [heqA], hst⟩
    rw [(applyPatientUpdate_spec (getProp body "status") (getProp body "priority") oldP).2.2.1,
      hst]
    simp [JVal.truthy]

/-- A state with one booked appointment besides the seeded patients and doctors. -/
def bookedDb : Db :=
  ⟨seedPatients, seedDoctors,
    [⟨"a1", .str "John Doe", .str "d1", .str "10:00", .str "2024-05-01", .str "Booked"⟩]⟩

/-- C7 at concrete requests on a state with appointment a1 (status "Booked") and
patient 1 (status "Waiting"): the empty-string status and the body without status
both replace the appointment's status, the same empty-string body leaves the
patient's status, and an unknown identifier is answered 404. -/
theorem updateAppointment_spec_witness :
    (updateAppointment "a1" [("status", .str "")] bookedDb).2
      = ⟨200, .appointment
          ⟨"a1", .str "John Doe", .str "d1", .str "10:00", .str "2024-05-01", .str ""⟩⟩ ∧
    (updateAppointment "a1" [] bookedDb).2
      = ⟨200, .appointment
          ⟨"a1", .str "John Doe", .str "d1", .str "10:00", .str "2024-05-01", .undefined⟩⟩ ∧
    (updatePatient "1" [("status", .str "")] bookedDb).2
      = ⟨200, .patient ⟨"1", .str "John Doe", .str "Waiting", .str "Normal"⟩⟩ ∧
    updateAppointment "a2" [("status", .str "Done")] bookedDb
      = (bookedDb, ⟨404, .error "Appointment not found."⟩) :=
  ⟨by decide, by decide, by decide,
   (updateAppointment_spec bookedDb "a2" [("status", .str "Done")]).2.1 (by decide)⟩

end Clinic
